import Mathlib

/-!
Verification of the clone snapshotter (package snapshotter,
src/snapshotter/snapshotter.go).

The development shallowly embeds the wrapper's pure control flow:

* labels / option mutators (snapshots.Opt, snapshots.Info),
* the writable-layer locator (getWritableDir, joinMountTypes),
* an explicit filesystem tree on which clearDir / copyDir / copyFile /
  copySymlink are modelled,
* the wrapping Prepare / clonePrepare logic over an abstract underlying
  store, instrumented with a trace of the store operations performed.

Modelling conventions:

* Go errors are the inductive GoErr; fmt.Errorf with a %w verb is
  GoErr.wrap, the combined message produced on rollback failure
  (a %w for the copy error plus a %v for the cleanup error) is
  GoErr.both.  errors.Is(err, ErrNotFound) corresponds to
  GoErr.isNotFound, which unwraps through wrap and through the %w
  component of both.
* Go strings are Lean strings; strings.CutPrefix is modelled on the
  character lists underlying the strings (byte indexing and character
  indexing agree on the ASCII prefixes used by the code).
* map[string]string is an association list with unique keys maintained
  by its operations; delete removes every binding of the key.
* Timestamps (Created/Updated) of snapshots.Info are not used by the
  wrapper and are omitted from the model.
-/

/-- Errors, mirroring the error values the Go code creates and inspects.
wrap ctx e models fmt.Errorf(ctx ++ ": %w", e); both e re models the
rollback-failure message carrying the copy error (wrapped with %w) and the
cleanup error (formatted with %v, hence not unwrapped by errors.Is). -/
inductive GoErr where
  | notFound
  | simple (msg : String)
  | noent
  | notdir
  | exist
  | isDir
  | wrap (ctx : String) (inner : GoErr)
  | both (primary cleanup : GoErr)
deriving Repr, DecidableEq

/-- errors.Is(e, errdefs.ErrNotFound): unwraps %w chains; in the combined
rollback message only the copy error is wrapped with %w. -/
def GoErr.isNotFound : GoErr → Bool
  | .notFound => true
  | .wrap _ e => e.isNotFound
  | .both p _ => p.isNotFound
  | _ => false

/-- LabelCloneSource, the reserved clone-directive label key. -/
def LabelCloneSource : String := "containerd.io/snapshot/clone-source"

/-- map[string]string, as an association list. -/
abbrev Labels := List (String × String)

/-- Reading labels[k] (presence and value). -/
def getLabel (ls : Labels) (k : String) : Option String :=
  (List.lookup k ls)

/-- delete(labels, k): removes every binding of k. -/
def eraseLabel (ls : Labels) (k : String) : Labels :=
  match ls with
  | [] => []
  | (a, b) :: rest => if a = k then eraseLabel rest k else (a, b) :: eraseLabel rest k

/-- snapshots.Info, the fields the wrapper reads or writes. -/
structure Info where
  kind : Nat := 0
  name : String := ""
  parent : String := ""
  labels : Labels := []
deriving Repr, DecidableEq

/-- snapshots.Info\x7b\x7d, the zero value Prepare starts from. -/
def Info.empty : Info := {}

/-- snapshots.Opt: a fallible mutator of Info. -/
def Opt := Info → Except GoErr Info

/-- The loop at the top of Prepare: apply each opt in order to one Info,
stopping at the first failure. -/
def applyOpts (opts : List Opt) (info : Info) : Except GoErr Info :=
  match opts with
  | [] => .ok info
  | o :: rest =>
    match o info with
    | .error e => .error e
    | .ok i => applyOpts rest i

/-- withoutLabel: a single opt that applies all of the original opts and
then deletes the named label. -/
def withoutLabel (opts : List Opt) (label : String) : List Opt :=
  [fun info =>
    match applyOpts opts info with
    | .error e => .error e
    | .ok i => .ok { i with labels := eraseLabel i.labels label }]

/-- mount.Mount, the fields the wrapper reads. -/
structure Mount where
  type : String
  source : String
  options : List String
deriving Repr, DecidableEq

/-- strings.CutPrefix, on the character lists of the strings. -/
def cutPrefixStr (s pre : String) : Option String :=
  if pre.data.isPrefixOf s.data then some ⟨s.data.drop pre.data.length⟩ else none

/-- The inner loop of getWritableDir's overlay case: first option with the
upperdir= prefix wins, its suffix is returned. -/
def findUpperdir (opts : List String) : Option String :=
  match opts with
  | [] => none
  | o :: rest =>
    match cutPrefixStr o "upperdir=" with
    | some val => some val
    | none => findUpperdir rest

/-- joinMountTypes: comma-separated mount types for diagnostics. -/
def joinMountTypes (mounts : List Mount) : String :=
  String.intercalate ", " (mounts.map (·.type))

/-- The loop of getWritableDir: scan mounts in order; an overlay mount
yields the first upperdir= suffix if it has one (otherwise the scan
continues), a bind mount yields its source; other types are skipped. -/
def findWritableDir (mounts : List Mount) : Option String :=
  match mounts with
  | [] => none
  | m :: rest =>
    if m.type = "overlay" then
      match findUpperdir m.options with
      | some val => some val
      | none => findWritableDir rest
    else if m.type = "bind" then
      some m.source
    else
      findWritableDir rest

/-- getWritableDir: the loop above, with the descriptive error (naming all
mount types seen) when no entry qualifies. -/
def getWritableDir (mounts : List Mount) : Except GoErr String :=
  match findWritableDir mounts with
  | some val => .ok val
  | none =>
    .error (.simple ("no writable directory found in mounts (types: " ++
      joinMountTypes mounts ++ ")"))

/-- A filesystem tree: regular files (permission bits and content),
directories (permission bits and named children), and symbolic links
(the stored target string, kept unresolved). -/
inductive FNode where
  | file (mode : Nat) (content : String)
  | dir (mode : Nat) (children : List (String × FNode))
  | symlink (target : String)
deriving Repr

/-- Result of resolving a path: the node found, ENOENT (a component is
missing), or ENOTDIR (a non-directory appears as a prefix component).
Symbolic links are never followed by this model; a path through one
resolves as ENOTDIR (the wrapper never forms such paths). -/
inductive LookupRes where
  | found (n : FNode)
  | noent
  | notdir
deriving Repr

/-- Resolve a path (a list of components) inside a tree. -/
def lookupR : FNode → List String → LookupRes
  | n, [] => .found n
  | .dir _ cs, k :: rest =>
    match List.lookup k cs with
    | some c => lookupR c rest
    | none => .noent
  | _, _ :: _ => .notdir

/-- Replace (or append) the binding of k in a children list. -/
def setChild (cs : List (String × FNode)) (k : String) (n : FNode) :
    List (String × FNode) :=
  match cs with
  | [] => [(k, n)]
  | (k1, c1) :: rest =>
    if k1 = k then (k, n) :: rest else (k1, c1) :: setChild rest k n

/-- Replace the node at an existing path (identity when the path does not
resolve). -/
def replaceAt : FNode → List String → FNode → FNode
  | _, [], new => new
  | .dir m cs, k :: rest, new =>
    match List.lookup k cs with
    | some c => .dir m (setChild cs k (replaceAt c rest new))
    | none => .dir m cs
  | n, _ :: _, _ => n

/-- clearDir: os.ReadDir on the directory followed by os.RemoveAll of each
entry.  A missing directory is not an error (os.IsNotExist on the ReadDir
failure) and leaves the tree unchanged; ReadDir on a non-directory fails
(ENOTDIR); otherwise every child is removed and the directory node itself
stays in place with its mode. -/
def clearDir (root : FNode) (p : List String) : Except GoErr FNode :=
  match lookupR root p with
  | .found (.dir m _) => .ok (replaceAt root p (.dir m []))
  | .found _ => .error .notdir
  | .noent => .ok root
  | .notdir => .error .notdir

/-- os.MkdirAll: creates every missing directory on the path with the
given permission bits; existing directories (children included) are left
untouched; an existing non-directory on the path is an error. -/
def mkdirAll : FNode → List String → Nat → Except GoErr FNode
  | .dir m cs, [], _ => .ok (.dir m cs)
  | _, [], _ => .error .notdir
  | .dir m cs, k :: rest, mode =>
    match
      (match List.lookup k cs with
       | some c => mkdirAll c rest mode
       | none => mkdirAll (.dir mode []) rest mode) with
    | .error e => .error e
    | .ok c2 => .ok (.dir m (setChild cs k c2))
  | _, _ :: _, _ => .error .notdir

/-- copyFile's destination side: os.OpenFile with O_CREATE, O_WRONLY and
O_TRUNC plus io.Copy.  A new file is created with the given mode; an
existing regular file keeps its mode and has its content replaced; opening
a directory this way fails (EISDIR).  A symbolic link at the destination
path would be followed by the OS; that case is modelled as an error (the
wrapper only writes into a just-cleared directory, where it cannot
arise). -/
def writeFile : FNode → List String → Nat → String → Except GoErr FNode
  | _, [], _, _ => .error .isDir
  | .dir m cs, [k], mode, content =>
    match List.lookup k cs with
    | none => .ok (.dir m (setChild cs k (.file mode content)))
    | some (.file oldMode _) => .ok (.dir m (setChild cs k (.file oldMode content)))
    | some _ => .error .isDir
  | .dir m cs, k :: rest, mode, content =>
    match List.lookup k cs with
    | some c =>
      match writeFile c rest mode content with
      | .error e => .error e
      | .ok c2 => .ok (.dir m (setChild cs k c2))
    | none => .error .noent
  | _, _ :: _, _, _ => .error .notdir

/-- os.Symlink target dst: fails if anything already exists at dst
(EEXIST); otherwise records the target string verbatim, without resolving
or validating it. -/
def symlinkAt : FNode → List String → String → Except GoErr FNode
  | _, [], _ => .error .exist
  | .dir m cs, [k], target =>
    match List.lookup k cs with
    | none => .ok (.dir m (setChild cs k (.symlink target)))
    | some _ => .error .exist
  | .dir m cs, k :: rest, target =>
    match List.lookup k cs with
    | some c =>
      match symlinkAt c rest target with
      | .error e => .error e
      | .ok c2 => .ok (.dir m (setChild cs k c2))
    | none => .error .noent
  | _, _ :: _, _ => .error .notdir

mutual
/-- One WalkDir callback of copyDir, applied to the source entry read at a
relative path whose destination is dst: a symbolic link is recreated by
copySymlink (os.Readlink on the source link supplies the target string,
passed through verbatim to os.Symlink); a directory is created by
os.MkdirAll with the source's permission bits and the walk then descends
into its children; a regular file is copied by copyFile. -/
def copyNode (root : FNode) (dst : List String) : FNode → Except GoErr FNode
  | .symlink target => symlinkAt root dst target
  | .dir mode cs =>
    match mkdirAll root dst mode with
    | .error e => .error e
    | .ok root2 => copyChildren root2 dst cs
  | .file mode content => writeFile root dst mode content

/-- The walk's descent into a directory's entries, each copied in turn;
the first failure aborts the walk. -/
def copyChildren (root : FNode) (dst : List String) :
    List (String × FNode) → Except GoErr FNode
  | [] => .ok root
  | (k, c) :: rest =>
    match copyNode root (dst ++ [k]) c with
    | .error e => .error e
    | .ok root2 => copyChildren root2 dst rest
end

/-- copyDir: filepath.WalkDir over the source tree rooted at srcDir,
copying every entry to the corresponding path under dstDir.  The walk's
root entry (relative path ".") is skipped, so a source root that is not a
directory copies nothing; a source root that does not resolve is the
walk's error.  Children are visited in list order (WalkDir's lexical
ordering does not affect any property proved here).  The walk reads the
source subtree as captured in the tree; on failure the partially written
destination state is not tracked (no property here depends on it). -/
def copyDir (root : FNode) (srcDir dstDir : List String) : Except GoErr FNode :=
  match lookupR root srcDir with
  | .found (.dir _ cs) => copyChildren root dstDir cs
  | .found _ => .ok root
  | .noent => .error .noent
  | .notdir => .error .notdir

/-- Splitting a character list at every slash. -/
def splitSlash : List Char → List Char → List (List Char)
  | [], acc => [acc.reverse]
  | c :: rest, acc =>
    if c = '/' then acc.reverse :: splitSlash rest []
    else splitSlash rest (c :: acc)

/-- Split a path string into components (filepath-style: split on the
separator, ignore empty components). -/
def splitPath (s : String) : List String :=
  ((splitSlash s.data []).map (fun l => (⟨l⟩ : String))).filter
    (fun c => c ≠ "")

/-- copyWritableLayer: locate the writable directories of the source and
destination mount lists, clear the destination directory, then copy the
source directory's contents into it. -/
def copyWritableLayer (root : FNode) (srcMounts dstMounts : List Mount) :
    Except GoErr FNode :=
  match getWritableDir srcMounts with
  | .error e => .error (.wrap "source" e)
  | .ok srcDir =>
    match getWritableDir dstMounts with
    | .error e => .error (.wrap "destination" e)
    | .ok dstDir =>
      match clearDir root (splitPath dstDir) with
      | .error e => .error (.wrap "clear destination directory" e)
      | .ok root1 => copyDir root1 (splitPath srcDir) (splitPath dstDir)

/-- The underlying snapshots.Snapshotter, restricted to the operations the
wrapper invokes.  Responses are modelled as pure functions of the
arguments: the wrapper performs at most one call per operation and key in
a single request, so no store-state evolution is observable by it. -/
structure Store where
  stat : String → Except GoErr Info
  mounts : String → Except GoErr (List Mount)
  prepare : String → String → List Opt → Except GoErr (List Mount)
  remove : String → Except GoErr Unit

/-- One call made to the underlying store, with its arguments. -/
inductive StoreOp where
  | stat (key : String)
  | mounts (key : String)
  | prepare (key parent : String) (opts : List Opt)
  | remove (key : String)

/-- The constructor and string arguments of a store call (the opt
functions dropped), giving traces a decidable image. -/
inductive OpTag where
  | stat (key : String)
  | mounts (key : String)
  | prepare (key parent : String)
  | remove (key : String)
deriving Repr, DecidableEq

/-- Tag of a store call. -/
def StoreOp.tag : StoreOp → OpTag
  | .stat k => .stat k
  | .mounts k => .mounts k
  | .prepare k p _ => .prepare k p
  | .remove k => .remove k

/-- Whether a tag is a prepare call (a store mutation creating the
destination snapshot). -/
def OpTag.isPrepareCall : OpTag → Bool
  | .prepare _ _ => true
  | _ => false

/-- Whether a tag is a remove call. -/
def OpTag.isRemoveCall : OpTag → Bool
  | .remove _ => true
  | _ => false

/-- Outcome of the wrapper's Prepare: the returned mounts or error, the
filesystem state after the request, and the trace of store calls made. -/
structure PrepResult where
  res : Except GoErr (List Mount)
  root : FNode
  trace : List StoreOp

/-- Go %q formatting of a key (escaping inside the key not modelled). -/
def quoteStr (s : String) : String := "\"" ++ s ++ "\""

/-- clonePrepare: stat the source, fetch its mounts, prepare the
destination under the source's parent with the clone label stripped, then
copy the writable layer, removing the destination again if the copy
fails. -/
def clonePrepare (s : Store) (root : FNode) (key sourceKey : String)
    (opts : List Opt) : PrepResult :=
  match s.stat sourceKey with
  | .error e =>
    ⟨.error (.wrap ("stat source snapshot " ++ quoteStr sourceKey) e), root,
      [.stat sourceKey]⟩
  | .ok sourceInfo =>
    match s.mounts sourceKey with
    | .error e =>
      ⟨.error (.wrap ("get mounts for source snapshot " ++ quoteStr sourceKey) e),
        root, [.stat sourceKey, .mounts sourceKey]⟩
    | .ok sourceMounts =>
      let innerOpts := withoutLabel opts LabelCloneSource
      match s.prepare key sourceInfo.parent innerOpts with
      | .error e =>
        ⟨.error (.wrap ("prepare snapshot " ++ quoteStr key) e), root,
          [.stat sourceKey, .mounts sourceKey,
           .prepare key sourceInfo.parent innerOpts]⟩
      | .ok mounts =>
        match copyWritableLayer root sourceMounts mounts with
        | .error e =>
          match s.remove key with
          | .error removeErr =>
            ⟨.error (.both e removeErr), root,
              [.stat sourceKey, .mounts sourceKey,
               .prepare key sourceInfo.parent innerOpts, .remove key]⟩
          | .ok _ =>
            ⟨.error (.wrap ("copy writable layer from " ++ quoteStr sourceKey ++
                " to " ++ quoteStr key) e), root,
              [.stat sourceKey, .mounts sourceKey,
               .prepare key sourceInfo.parent innerOpts, .remove key]⟩
        | .ok root2 =>
          ⟨.ok mounts, root2,
            [.stat sourceKey, .mounts sourceKey,
             .prepare key sourceInfo.parent innerOpts]⟩

namespace CloneSnapshotter

/-- CloneSnapshotter.Prepare: resolve the opts into an Info; if the clone
label is absent, delegate to the underlying prepare with the original
arguments; if present, run clonePrepare with the label's value as the
source key (the caller-supplied parent is not passed on). -/
def Prepare (s : Store) (root : FNode) (key parent : String)
    (opts : List Opt) : PrepResult :=
  match applyOpts opts Info.empty with
  | .error e => ⟨.error e, root, []⟩
  | .ok info =>
    match getLabel info.labels LabelCloneSource with
    | none => ⟨s.prepare key parent opts, root, [.prepare key parent opts]⟩
    | some sourceKey => clonePrepare s root key sourceKey opts

end CloneSnapshotter

/-- The writable-layer path a single mount entry yields on its own, if
any, following the locator contract: the first upperdir= suffix for an
overlay entry, the source path for a bind entry, nothing otherwise.  An
entry qualifies exactly when this is some value. -/
def extractDir (m : Mount) : Option String :=
  if m.type = "overlay" then findUpperdir m.options
  else if m.type = "bind" then some m.source
  else none

/-- A tree transition preserves a symlink already present at a path. -/
def preservesSymlinks (root root2 : FNode) : Prop :=
  ∀ p t, lookupR root p = .found (.symlink t) → lookupR root2 p = .found (.symlink t)

/-- Fixture mounts for concrete witnesses. -/
def wOverlayMount : Mount :=
  ⟨"overlay", "overlay", ["index=off", "lowerdir=/l1:/l2", "upperdir=/up", "workdir=/w"]⟩

/-- Fixture: an unsupported mount shape. -/
def wTmpfsMount : Mount := ⟨"tmpfs", "none", []⟩

/-- Fixture: the source bind mount. -/
def wSrcBind : Mount := ⟨"bind", "/src", []⟩

/-- Fixture: the destination bind mount. -/
def wDstBind : Mount := ⟨"bind", "/dst", []⟩

/-- Fixture filesystem: a source writable directory holding a file, a
dangling symlink and a subdirectory, and a destination directory holding a
stale file. -/
def wRoot : FNode :=
  .dir 755
    [("src", .dir 700
      [("a.txt", .file 644 "hello"),
       ("link", .symlink "dangling-target"),
       ("sub", .dir 755 [("b", .file 600 "bb")])]),
     ("dst", .dir 700 [("stale", .file 644 "old")])]

/-- Fixture opts: set the clone directive to "srckey". -/
def wOpts : List Opt :=
  [fun i => .ok { i with labels := [(LabelCloneSource, "srckey")] }]

/-- Fixture opts: set the clone directive to the empty string. -/
def wOptsEmptyVal : List Opt :=
  [fun i => .ok { i with labels := [(LabelCloneSource, "")] }]

/-- Fixture store: "srckey" exists with parent "base" and a bind mount at
/src; prepare yields a bind mount at /dst; remove succeeds. -/
def wStore : Store where
  stat := fun k => if k = "srckey" then .ok { name := "srckey", parent := "base" }
                   else .error .notFound
  mounts := fun _ => .ok [wSrcBind]
  prepare := fun _ _ _ => .ok [wDstBind]
  remove := fun _ => .ok ()

/-- Fixture store: every stat fails not-found. -/
def wStoreStatFail : Store where
  stat := fun _ => .error .notFound
  mounts := fun _ => .ok [wSrcBind]
  prepare := fun _ _ _ => .ok [wDstBind]
  remove := fun _ => .ok ()

/-- Fixture store: prepare yields an unsupported destination mount shape,
so replication fails; remove succeeds. -/
def wStoreBadDst : Store where
  stat := fun k => if k = "srckey" then .ok { name := "srckey", parent := "base" }
                   else .error .notFound
  mounts := fun _ => .ok [wSrcBind]
  prepare := fun _ _ _ => .ok [wTmpfsMount]
  remove := fun _ => .ok ()

/-- Fixture store: the source's mount list has an unsupported shape, while
preparing the destination succeeds with a bind mount; remove succeeds. -/
def wStoreBadSrc : Store where
  stat := fun k => if k = "srckey" then .ok { name := "srckey", parent := "base" }
                   else .error .notFound
  mounts := fun _ => .ok [wTmpfsMount]
  prepare := fun _ _ _ => .ok [wDstBind]
  remove := fun _ => .ok ()

/-- The filesystem produced by the fixture clone through wStore (reduces
to a concrete tree; bound here so witnesses can name it). -/
def wRootCloned : FNode :=
  match copyDir (.dir 755
      [("src", .dir 700
        [("a.txt", .file 644 "hello"),
         ("link", .symlink "dangling-target"),
         ("sub", .dir 755 [("b", .file 600 "bb")])]),
       ("dst", .dir 700 [])]) ["src"] ["dst"] with
  | .ok r => r
  | .error _ => .file 0 ""


/-- Looking up a key after erasing it finds nothing. -/
theorem getLabel_eraseLabel (ls : Labels) (k : String) :
    getLabel (eraseLabel ls k) k = none := by
  induction ls with
  | nil => rfl
  | cons p rest ih =>
    obtain ⟨a, b⟩ := p
    by_cases h : a = k
    · simpa [eraseLabel, h] using ih
    · have hk : k ≠ a := fun hh => h hh.symm
      simpa [eraseLabel, h, getLabel, List.lookup, beq_false_of_ne hk] using ih

/-- Applying the single opt produced by withoutLabel is applying the
original opts and then erasing the label. -/
theorem applyOpts_withoutLabel (opts : List Opt) (label : String) (info : Info) :
    applyOpts (withoutLabel opts label) info =
      (applyOpts opts info).map
        (fun i => { i with labels := eraseLabel i.labels label }) := by
  cases h : applyOpts opts info <;>
    simp [withoutLabel, applyOpts, h, Except.map]

/-- Resolving a clone-labelled request reduces Prepare to clonePrepare. -/
theorem prepare_clone_eq (s : Store) (root : FNode) (key parent : String)
    (opts : List Opt) (info : Info) (sourceKey : String)
    (hres : applyOpts opts Info.empty = .ok info)
    (hlab : getLabel info.labels LabelCloneSource = some sourceKey) :
    CloneSnapshotter.Prepare s root key parent opts =
      clonePrepare s root key sourceKey opts := by
  simp only [CloneSnapshotter.Prepare, hres, hlab]

/-- Evaluation of clonePrepare when the source stat fails. -/
theorem clonePrepare_statFail (s : Store) (root : FNode) (key sourceKey : String)
    (opts : List Opt) (e : GoErr)
    (hstat : s.stat sourceKey = .error e) :
    clonePrepare s root key sourceKey opts =
      ⟨.error (.wrap ("stat source snapshot " ++ quoteStr sourceKey) e), root,
        [.stat sourceKey]⟩ := by
  simp only [clonePrepare, hstat]

/-- Evaluation of clonePrepare when the source mounts call fails. -/
theorem clonePrepare_mountsFail (s : Store) (root : FNode) (key sourceKey : String)
    (opts : List Opt) (si : Info) (e : GoErr)
    (hstat : s.stat sourceKey = .ok si)
    (hmnts : s.mounts sourceKey = .error e) :
    clonePrepare s root key sourceKey opts =
      ⟨.error (.wrap ("get mounts for source snapshot " ++ quoteStr sourceKey) e),
        root, [.stat sourceKey, .mounts sourceKey]⟩ := by
  simp only [clonePrepare, hstat, hmnts]

/-- Evaluation of clonePrepare when the inner prepare fails. -/
theorem clonePrepare_prepareFail (s : Store) (root : FNode)
    (key sourceKey : String) (opts : List Opt) (si : Info) (sm : List Mount)
    (e : GoErr)
    (hstat : s.stat sourceKey = .ok si)
    (hmnts : s.mounts sourceKey = .ok sm)
    (hprep : s.prepare key si.parent (withoutLabel opts LabelCloneSource) = .error e) :
    clonePrepare s root key sourceKey opts =
      ⟨.error (.wrap ("prepare snapshot " ++ quoteStr key) e), root,
        [.stat sourceKey, .mounts sourceKey,
         .prepare key si.parent (withoutLabel opts LabelCloneSource)]⟩ := by
  simp only [clonePrepare, hstat, hmnts, hprep]

/-- Evaluation of clonePrepare when replication fails and the rollback
removal succeeds. -/
theorem clonePrepare_copyFail_removeOk (s : Store) (root : FNode)
    (key sourceKey : String) (opts : List Opt) (si : Info) (sm dm : List Mount)
    (e : GoErr)
    (hstat : s.stat sourceKey = .ok si)
    (hmnts : s.mounts sourceKey = .ok sm)
    (hprep : s.prepare key si.parent (withoutLabel opts LabelCloneSource) = .ok dm)
    (hcopy : copyWritableLayer root sm dm = .error e)
    (hrm : s.remove key = .ok ()) :
    clonePrepare s root key sourceKey opts =
      ⟨.error (.wrap ("copy writable layer from " ++ quoteStr sourceKey ++
          " to " ++ quoteStr key) e), root,
        [.stat sourceKey, .mounts sourceKey,
         .prepare key si.parent (withoutLabel opts LabelCloneSource),
         .remove key]⟩ := by
  simp only [clonePrepare, hstat, hmnts, hprep, hcopy, hrm]

/-- Evaluation of clonePrepare when replication fails and the rollback
removal fails as well. -/
theorem clonePrepare_copyFail_removeFail (s : Store) (root : FNode)
    (key sourceKey : String) (opts : List Opt) (si : Info) (sm dm : List Mount)
    (e re : GoErr)
    (hstat : s.stat sourceKey = .ok si)
    (hmnts : s.mounts sourceKey = .ok sm)
    (hprep : s.prepare key si.parent (withoutLabel opts LabelCloneSource) = .ok dm)
    (hcopy : copyWritableLayer root sm dm = .error e)
    (hrm : s.remove key = .error re) :
    clonePrepare s root key sourceKey opts =
      ⟨.error (.both e re), root,
        [.stat sourceKey, .mounts sourceKey,
         .prepare key si.parent (withoutLabel opts LabelCloneSource),
         .remove key]⟩ := by
  simp only [clonePrepare, hstat, hmnts, hprep, hcopy, hrm]

/-- Evaluation of clonePrepare when everything succeeds. -/
theorem clonePrepare_success (s : Store) (root root2 : FNode)
    (key sourceKey : String) (opts : List Opt) (si : Info) (sm dm : List Mount)
    (hstat : s.stat sourceKey = .ok si)
    (hmnts : s.mounts sourceKey = .ok sm)
    (hprep : s.prepare key si.parent (withoutLabel opts LabelCloneSource) = .ok dm)
    (hcopy : copyWritableLayer root sm dm = .ok root2) :
    clonePrepare s root key sourceKey opts =
      ⟨.ok dm, root2,
        [.stat sourceKey, .mounts sourceKey,
         .prepare key si.parent (withoutLabel opts LabelCloneSource)]⟩ := by
  simp only [clonePrepare, hstat, hmnts, hprep, hcopy]

/-- The first store call of every clone path is the stat of the source. -/
theorem clonePrepare_trace_head (s : Store) (root : FNode)
    (key sourceKey : String) (opts : List Opt) :
    (clonePrepare s root key sourceKey opts).trace.head? =
      some (.stat sourceKey) := by
  cases h1 : s.stat sourceKey with
  | error e => rw [clonePrepare_statFail s root key sourceKey opts e h1]; rfl
  | ok si =>
    cases h2 : s.mounts sourceKey with
    | error e => rw [clonePrepare_mountsFail s root key sourceKey opts si e h1 h2]; rfl
    | ok sm =>
      cases h3 : s.prepare key si.parent (withoutLabel opts LabelCloneSource) with
      | error e => rw [clonePrepare_prepareFail s root key sourceKey opts si sm e h1 h2 h3]; rfl
      | ok dm =>
        cases h4 : copyWritableLayer root sm dm with
        | error e =>
          cases h5 : s.remove key with
          | error re =>
            rw [clonePrepare_copyFail_removeFail s root key sourceKey opts si sm dm e re h1 h2 h3 h4 h5]; rfl
          | ok u =>
            cases u
            rw [clonePrepare_copyFail_removeOk s root key sourceKey opts si sm dm e h1 h2 h3 h4 h5]; rfl
        | ok root2 =>
          rw [clonePrepare_success s root root2 key sourceKey opts si sm dm h1 h2 h3 h4]; rfl

/-- C2: for every prepare request whose resolved labels lack the clone
directive key, CloneSnapshotter.Prepare returns exactly the result of the
underlying store's prepare on the same destination key, parent key and
option sequence; the trace shows that one call and nothing else, and the
filesystem is untouched. -/
theorem prepare_without_directive_delegates
    (s : Store) (root : FNode) (key parent : String) (opts : List Opt)
    (info : Info)
    (hres : applyOpts opts Info.empty = .ok info)
    (habs : getLabel info.labels LabelCloneSource = none) :
    CloneSnapshotter.Prepare s root key parent opts =
      ⟨s.prepare key parent opts, root, [.prepare key parent opts]⟩ := by
  simp only [CloneSnapshotter.Prepare, hres, habs]

/-- Witness for C2 on a concrete request without the directive. -/
theorem prepare_without_directive_delegates_witness :
    CloneSnapshotter.Prepare wStore wRoot "k" "p" [] =
      ⟨wStore.prepare "k" "p" [], wRoot, [.prepare "k" "p" []]⟩ :=
  prepare_without_directive_delegates wStore wRoot "k" "p" [] Info.empty rfl rfl

/-- C3: the option sequence handed to the underlying prepare in the clone
path is exactly withoutLabel of the original opts; that single opt applies
all original opts in order and then erases the clone-directive label, so
any info it successfully resolves lacks the clone-source key, whatever the
original opts set it to. -/
theorem withoutLabel_strips_directive :
    (∀ opts info, applyOpts (withoutLabel opts LabelCloneSource) info =
      (applyOpts opts info).map
        (fun i => { i with labels := eraseLabel i.labels LabelCloneSource })) ∧
    (∀ opts info i,
      applyOpts (withoutLabel opts LabelCloneSource) info = .ok i →
      getLabel i.labels LabelCloneSource = none) ∧
    (∀ s root key sourceKey opts k p io,
      StoreOp.prepare k p io ∈ (clonePrepare s root key sourceKey opts).trace →
      io = withoutLabel opts LabelCloneSource) := by
  refine ⟨fun opts info => applyOpts_withoutLabel opts LabelCloneSource info,
    fun opts info i h => ?_, fun s root key sourceKey opts k p io h => ?_⟩
  · rw [applyOpts_withoutLabel] at h
    cases h2 : applyOpts opts info with
    | error e => rw [h2] at h; simp [Except.map] at h
    | ok i0 =>
      rw [h2] at h
      simp only [Except.map, Except.ok.injEq] at h
      subst h
      exact getLabel_eraseLabel i0.labels LabelCloneSource
  · cases h1 : s.stat sourceKey with
    | error e =>
      rw [clonePrepare_statFail s root key sourceKey opts e h1] at h
      simp at h
    | ok si =>
      cases h2 : s.mounts sourceKey with
      | error e =>
        rw [clonePrepare_mountsFail s root key sourceKey opts si e h1 h2] at h
        simp at h
      | ok sm =>
        cases h3 : s.prepare key si.parent (withoutLabel opts LabelCloneSource) with
        | error e =>
          rw [clonePrepare_prepareFail s root key sourceKey opts si sm e h1 h2 h3] at h
          simp only [List.mem_cons, List.not_mem_nil, or_false] at h
          rcases h with h | h | h <;> simp_all
        | ok dm =>
          cases h4 : copyWritableLayer root sm dm with
          | error e =>
            cases h5 : s.remove key with
            | error re =>
              rw [clonePrepare_copyFail_removeFail s root key sourceKey opts si
                sm dm e re h1 h2 h3 h4 h5] at h
              simp only [List.mem_cons, List.not_mem_nil, or_false] at h
              rcases h with h | h | h | h <;> simp_all
            | ok u =>
              cases u
              rw [clonePrepare_copyFail_removeOk s root key sourceKey opts si
                sm dm e h1 h2 h3 h4 h5] at h
              simp only [List.mem_cons, List.not_mem_nil, or_false] at h
              rcases h with h | h | h | h <;> simp_all
          | ok root2 =>
            rw [clonePrepare_success s root root2 key sourceKey opts si sm dm
              h1 h2 h3 h4] at h
            simp only [List.mem_cons, List.not_mem_nil, or_false] at h
            rcases h with h | h | h <;> simp_all

/-- Witness for C3 on a concrete clone run: the inner opts resolve to
labels without the directive. -/
theorem withoutLabel_strips_directive_witness :
    applyOpts (withoutLabel wOpts LabelCloneSource) Info.empty =
      .ok { labels := [] } ∧
    getLabel ([] : Labels) LabelCloneSource = none :=
  ⟨by rfl,
    withoutLabel_strips_directive.2.1 wOpts Info.empty { labels := [] } (by rfl)⟩

/-- C10: a prepare whose labels bind the clone-source key to the empty
string still takes the clone path, with the empty string as the source key
(the store's stat is invoked on it first); it is not delegated as a
non-clone prepare. -/
theorem clone_triggered_by_presence
    (s : Store) (root : FNode) (key parent : String) (opts : List Opt)
    (info : Info)
    (hres : applyOpts opts Info.empty = .ok info)
    (hlab : getLabel info.labels LabelCloneSource = some "") :
    CloneSnapshotter.Prepare s root key parent opts =
      clonePrepare s root key "" opts ∧
    (CloneSnapshotter.Prepare s root key parent opts).trace.head? =
      some (.stat "") := by
  have h1 := prepare_clone_eq s root key parent opts info "" hres hlab
  exact ⟨h1, by rw [h1]; exact clonePrepare_trace_head s root key "" opts⟩

/-- Witness for C10 on a concrete request whose directive value is "". -/
theorem clone_triggered_by_presence_witness :
    CloneSnapshotter.Prepare wStoreStatFail wRoot "k" "p" wOptsEmptyVal =
      clonePrepare wStoreStatFail wRoot "k" "" wOptsEmptyVal ∧
    (CloneSnapshotter.Prepare wStoreStatFail wRoot "k" "p" wOptsEmptyVal).trace.head? =
      some (.stat "") :=
  clone_triggered_by_presence wStoreStatFail wRoot "k" "p" wOptsEmptyVal
    { labels := [(LabelCloneSource, "")] } rfl rfl

/-- With the source resolvable, every trace of the clone path contains the
inner prepare call on the destination key and the source's parent, and any
prepare call it contains has exactly those arguments. -/
theorem clonePrepare_trace_mem (s : Store) (root : FNode)
    (key sourceKey : String) (opts : List Opt) (si : Info) (sm : List Mount)
    (hstat : s.stat sourceKey = .ok si)
    (hmnts : s.mounts sourceKey = .ok sm) :
    StoreOp.prepare key si.parent (withoutLabel opts LabelCloneSource) ∈
      (clonePrepare s root key sourceKey opts).trace ∧
    (∀ k p io,
      StoreOp.prepare k p io ∈ (clonePrepare s root key sourceKey opts).trace →
      k = key ∧ p = si.parent) := by
  cases h3 : s.prepare key si.parent (withoutLabel opts LabelCloneSource) with
  | error e =>
    rw [clonePrepare_prepareFail s root key sourceKey opts si sm e hstat hmnts h3]
    refine ⟨by simp, fun k p io h => ?_⟩
    simp only [List.mem_cons, List.not_mem_nil, or_false] at h
    rcases h with h | h | h <;> simp_all
  | ok dm =>
    cases h4 : copyWritableLayer root sm dm with
    | error e =>
      cases h5 : s.remove key with
      | error re =>
        rw [clonePrepare_copyFail_removeFail s root key sourceKey opts si sm dm
          e re hstat hmnts h3 h4 h5]
        refine ⟨by simp, fun k p io h => ?_⟩
        simp only [List.mem_cons, List.not_mem_nil, or_false] at h
        rcases h with h | h | h | h <;> simp_all
      | ok u =>
        cases u
        rw [clonePrepare_copyFail_removeOk s root key sourceKey opts si sm dm
          e hstat hmnts h3 h4 h5]
        refine ⟨by simp, fun k p io h => ?_⟩
        simp only [List.mem_cons, List.not_mem_nil, or_false] at h
        rcases h with h | h | h | h <;> simp_all
    | ok root2 =>
      rw [clonePrepare_success s root root2 key sourceKey opts si sm dm
        hstat hmnts h3 h4]
      refine ⟨by simp, fun k p io h => ?_⟩
      simp only [List.mem_cons, List.not_mem_nil, or_false] at h
      rcases h with h | h | h <;> simp_all

/-- C1: with the clone directive present, the wrapper's result is that of
the clone path, whatever parent the caller supplied; the underlying
prepare is invoked on the destination key and the source snapshot's
parent (with the stripped opts), and no prepare call with any other key or
parent is ever made. -/
theorem prepare_clone_uses_source_parent
    (s : Store) (root : FNode) (key parent : String) (opts : List Opt)
    (info : Info) (sourceKey : String) (sourceInfo : Info)
    (sourceMounts : List Mount)
    (hres : applyOpts opts Info.empty = .ok info)
    (hlab : getLabel info.labels LabelCloneSource = some sourceKey)
    (hstat : s.stat sourceKey = .ok sourceInfo)
    (hmnts : s.mounts sourceKey = .ok sourceMounts) :
    (∀ parent2, CloneSnapshotter.Prepare s root key parent2 opts =
      clonePrepare s root key sourceKey opts) ∧
    StoreOp.prepare key sourceInfo.parent (withoutLabel opts LabelCloneSource) ∈
      (CloneSnapshotter.Prepare s root key parent opts).trace ∧
    (∀ k p io,
      StoreOp.prepare k p io ∈
        (CloneSnapshotter.Prepare s root key parent opts).trace →
      k = key ∧ p = sourceInfo.parent) := by
  have h1 : ∀ parent2, CloneSnapshotter.Prepare s root key parent2 opts =
      clonePrepare s root key sourceKey opts :=
    fun parent2 => prepare_clone_eq s root key parent2 opts info sourceKey hres hlab
  have h2 := clonePrepare_trace_mem s root key sourceKey opts sourceInfo
    sourceMounts hstat hmnts
  exact ⟨h1, by rw [h1 parent]; exact h2.1, by rw [h1 parent]; exact h2.2⟩

/-- Witness for C1 on a concrete clone request: a caller-supplied parent
"callerparent" is discarded in favour of the source's parent "base". -/
theorem prepare_clone_uses_source_parent_witness :
    (∀ parent2, CloneSnapshotter.Prepare wStore wRoot "dst" parent2 wOpts =
      clonePrepare wStore wRoot "dst" "srckey" wOpts) ∧
    StoreOp.prepare "dst" "base" (withoutLabel wOpts LabelCloneSource) ∈
      (CloneSnapshotter.Prepare wStore wRoot "dst" "callerparent" wOpts).trace ∧
    (∀ k p io,
      StoreOp.prepare k p io ∈
        (CloneSnapshotter.Prepare wStore wRoot "dst" "callerparent" wOpts).trace →
      k = "dst" ∧ p = "base") :=
  prepare_clone_uses_source_parent wStore wRoot "dst" "callerparent" wOpts
    { labels := [(LabelCloneSource, "srckey")] } "srckey"
    { name := "srckey", parent := "base" } [wSrcBind] rfl rfl rfl rfl

/-- C5: when the source stat fails, Prepare returns that failure wrapped
with context, makes no prepare or remove call on the store (so nothing is
created and nothing needs rolling back), leaves the filesystem unchanged,
and preserves the not-found kind of the stat failure. -/
theorem clone_missing_source_no_mutation
    (s : Store) (root : FNode) (key parent : String) (opts : List Opt)
    (info : Info) (sourceKey : String) (e : GoErr)
    (hres : applyOpts opts Info.empty = .ok info)
    (hlab : getLabel info.labels LabelCloneSource = some sourceKey)
    (hstat : s.stat sourceKey = .error e) :
    CloneSnapshotter.Prepare s root key parent opts =
      ⟨.error (.wrap ("stat source snapshot " ++ quoteStr sourceKey) e), root,
        [.stat sourceKey]⟩ ∧
    (∀ op ∈ (CloneSnapshotter.Prepare s root key parent opts).trace,
      op.tag.isPrepareCall = false ∧ op.tag.isRemoveCall = false) ∧
    (e.isNotFound = true →
      (GoErr.wrap ("stat source snapshot " ++ quoteStr sourceKey) e).isNotFound =
        true) := by
  have h1 := prepare_clone_eq s root key parent opts info sourceKey hres hlab
  have h2 := clonePrepare_statFail s root key sourceKey opts e hstat
  refine ⟨h1.trans h2, fun op hop => ?_, fun h => by simpa [GoErr.isNotFound] using h⟩
  rw [h1, h2] at hop
  simp only [List.mem_singleton] at hop
  subst hop
  exact ⟨rfl, rfl⟩

/-- Witness for C5 on a concrete request whose source key is absent. -/
theorem clone_missing_source_no_mutation_witness :
    CloneSnapshotter.Prepare wStoreStatFail wRoot "dst" "p" wOpts =
      ⟨.error (.wrap ("stat source snapshot " ++ quoteStr "srckey") .notFound),
        wRoot, [.stat "srckey"]⟩ ∧
    (∀ op ∈ (CloneSnapshotter.Prepare wStoreStatFail wRoot "dst" "p" wOpts).trace,
      op.tag.isPrepareCall = false ∧ op.tag.isRemoveCall = false) ∧
    (GoErr.notFound.isNotFound = true →
      (GoErr.wrap ("stat source snapshot " ++ quoteStr "srckey")
        .notFound).isNotFound = true) :=
  clone_missing_source_no_mutation wStoreStatFail wRoot "dst" "p" wOpts
    { labels := [(LabelCloneSource, "srckey")] } "srckey" .notFound rfl rfl rfl

/-- C6: when the inner prepare succeeded but replication fails, the store's
remove is attempted on the destination key; if it succeeds the returned
error wraps the replication failure alone, and if it fails the returned
error carries both the replication failure and the cleanup failure. -/
theorem clone_rollback_on_copy_failure
    (s : Store) (root : FNode) (key parent : String) (opts : List Opt)
    (info : Info) (sourceKey : String) (si : Info) (sm dm : List Mount)
    (e : GoErr)
    (hres : applyOpts opts Info.empty = .ok info)
    (hlab : getLabel info.labels LabelCloneSource = some sourceKey)
    (hstat : s.stat sourceKey = .ok si)
    (hmnts : s.mounts sourceKey = .ok sm)
    (hprep : s.prepare key si.parent (withoutLabel opts LabelCloneSource) = .ok dm)
    (hcopy : copyWritableLayer root sm dm = .error e) :
    StoreOp.remove key ∈ (CloneSnapshotter.Prepare s root key parent opts).trace ∧
    (s.remove key = .ok () →
      (CloneSnapshotter.Prepare s root key parent opts).res =
        .error (.wrap ("copy writable layer from " ++ quoteStr sourceKey ++
          " to " ++ quoteStr key) e)) ∧
    (∀ re, s.remove key = .error re →
      (CloneSnapshotter.Prepare s root key parent opts).res =
        .error (.both e re)) := by
  have h1 := prepare_clone_eq s root key parent opts info sourceKey hres hlab
  cases h5 : s.remove key with
  | ok u =>
    cases u
    have h2 := clonePrepare_copyFail_removeOk s root key sourceKey opts si sm dm
      e hstat hmnts hprep hcopy h5
    refine ⟨by rw [h1, h2]; simp, fun _ => by rw [h1, h2], fun re hre => ?_⟩
    cases hre
  | error re0 =>
    have h2 := clonePrepare_copyFail_removeFail s root key sourceKey opts si sm
      dm e re0 hstat hmnts hprep hcopy h5
    refine ⟨by rw [h1, h2]; simp, fun hok => ?_, fun re hre => ?_⟩
    · cases hok
    · cases hre
      rw [h1, h2]

/-- Witness for C6 on a concrete clone whose destination mounts have no
writable directory, so replication fails and the destination is removed. -/
theorem clone_rollback_on_copy_failure_witness :
    StoreOp.remove "dst" ∈
      (CloneSnapshotter.Prepare wStoreBadDst wRoot "dst" "p" wOpts).trace ∧
    (wStoreBadDst.remove "dst" = .ok () →
      (CloneSnapshotter.Prepare wStoreBadDst wRoot "dst" "p" wOpts).res =
        .error (.wrap ("copy writable layer from " ++ quoteStr "srckey" ++
          " to " ++ quoteStr "dst")
          (.wrap "destination"
            (.simple "no writable directory found in mounts (types: tmpfs)")))) ∧
    (∀ re, wStoreBadDst.remove "dst" = .error re →
      (CloneSnapshotter.Prepare wStoreBadDst wRoot "dst" "p" wOpts).res =
        .error (.both (.wrap "destination"
          (.simple "no writable directory found in mounts (types: tmpfs)")) re)) :=
  clone_rollback_on_copy_failure wStoreBadDst wRoot "dst" "p" wOpts
    { labels := [(LabelCloneSource, "srckey")] } "srckey"
    { name := "srckey", parent := "base" } [wSrcBind] [wTmpfsMount]
    (.wrap "destination"
      (.simple "no writable directory found in mounts (types: tmpfs)"))
    rfl rfl rfl rfl rfl rfl

/-- Cutting a prefix off a string that starts with it yields the suffix. -/
theorem cutPrefixStr_append (pre v : String) :
    cutPrefixStr (pre ++ v) pre = some v := by
  unfold cutPrefixStr
  have h1 : pre.data.isPrefixOf (pre ++ v).data = true := by
    rw [String.data_append, List.isPrefixOf_iff_prefix]
    exact List.prefix_append pre.data v.data
  rw [h1]
  simp only [if_true, String.data_append, List.drop_left]

/-- A non-qualifying head entry is skipped by the scan. -/
theorem findWritableDir_cons_none (m : Mount) (rest : List Mount)
    (h : extractDir m = none) :
    findWritableDir (m :: rest) = findWritableDir rest := by
  unfold extractDir at h
  by_cases h1 : m.type = "overlay"
  · rw [if_pos h1] at h
    simp [findWritableDir, h1, h]
  · by_cases h2 : m.type = "bind"
    · rw [if_neg h1, if_pos h2] at h
      cases h
    · simp [findWritableDir, h1, h2]

/-- A qualifying head entry ends the scan with its path. -/
theorem findWritableDir_cons_some (m : Mount) (rest : List Mount) (v : String)
    (h : extractDir m = some v) :
    findWritableDir (m :: rest) = some v := by
  unfold extractDir at h
  by_cases h1 : m.type = "overlay"
  · rw [if_pos h1] at h
    simp [findWritableDir, h1, h]
  · by_cases h2 : m.type = "bind"
    · rw [if_neg h1, if_pos h2] at h
      cases h
      simp [findWritableDir, h1, h2]
    · rw [if_neg h1, if_neg h2] at h
      cases h

/-- The scan of a list with no qualifying entry finds nothing. -/
theorem findWritableDir_eq_none (mounts : List Mount)
    (h : ∀ m ∈ mounts, extractDir m = none) :
    findWritableDir mounts = none := by
  induction mounts with
  | nil => rfl
  | cons m rest ih =>
    rw [findWritableDir_cons_none m rest (h m (List.mem_cons_self m rest))]
    exact ih (fun m2 hm => h m2 (List.mem_cons_of_mem m hm))

/-- The first qualifying entry of the list wins the scan. -/
theorem findWritableDir_first (pre : List Mount) (m : Mount) (rest : List Mount)
    (v : String)
    (hpre : ∀ m2 ∈ pre, extractDir m2 = none)
    (hm : extractDir m = some v) :
    findWritableDir (pre ++ m :: rest) = some v := by
  induction pre with
  | nil => exact findWritableDir_cons_some m rest v hm
  | cons p pre2 ih =>
    rw [List.cons_append,
      findWritableDir_cons_none p (pre2 ++ m :: rest)
        (hpre p (List.mem_cons_self p pre2))]
    exact ih (fun m2 hm2 => hpre m2 (List.mem_cons_of_mem p hm2))

/-- C4: the writable-layer locator scans the mount entries in order and
returns the path of the first qualifying entry — the suffix of the first
upperdir= option of an overlay entry (a string starting with the prefix is
cut to its suffix; a non-matching option is skipped), or the source path
of a bind entry — and when no entry qualifies it fails with the error
naming the comma-separated mount types seen, the empty list included. -/
theorem getWritableDir_spec :
    (∀ v : String, cutPrefixStr ("upperdir=" ++ v) "upperdir=" = some v) ∧
    (∀ o opts v, cutPrefixStr o "upperdir=" = some v →
      findUpperdir (o :: opts) = some v) ∧
    (∀ o opts, cutPrefixStr o "upperdir=" = none →
      findUpperdir (o :: opts) = findUpperdir opts) ∧
    (∀ pre m rest v,
      (∀ m2 ∈ pre, extractDir m2 = none) → extractDir m = some v →
      getWritableDir (pre ++ m :: rest) = .ok v) ∧
    (∀ mounts, (∀ m ∈ mounts, extractDir m = none) →
      getWritableDir mounts = .error (.simple
        ("no writable directory found in mounts (types: " ++
          joinMountTypes mounts ++ ")"))) := by
  refine ⟨cutPrefixStr_append "upperdir=",
    fun o opts v h => by simp [findUpperdir, h],
    fun o opts h => by simp [findUpperdir, h],
    fun pre m rest v hpre hm => ?_,
    fun mounts h => ?_⟩
  · unfold getWritableDir
    rw [findWritableDir_first pre m rest v hpre hm]
  · unfold getWritableDir
    rw [findWritableDir_eq_none mounts h]

/-- Witness for C4: a concrete scan past an unsupported entry into an
overlay entry's upperdir, and a concrete failing scan with the types in
the message. -/
theorem getWritableDir_spec_witness :
    getWritableDir [wTmpfsMount, wOverlayMount, wSrcBind] = .ok "/up" ∧
    getWritableDir [wTmpfsMount, wTmpfsMount] = .error (.simple
      ("no writable directory found in mounts (types: " ++
        joinMountTypes [wTmpfsMount, wTmpfsMount] ++ ")")) :=
  ⟨getWritableDir_spec.2.2.2.1 [wTmpfsMount] wOverlayMount [wSrcBind] "/up"
      (by intro m2 hm; rw [List.mem_singleton] at hm; subst hm; rfl) rfl,
    getWritableDir_spec.2.2.2.2 [wTmpfsMount, wTmpfsMount]
      (by intro m hm; rcases List.mem_cons.mp hm with h | h
          · subst h; rfl
          · rw [List.mem_singleton] at h; subst h; rfl)⟩

/-- When either mount list has no identifiable writable directory, the
replication step fails. -/
theorem copyWritableLayer_shape_error (root : FNode) (sm dm : List Mount)
    (h : findWritableDir sm = none ∨ findWritableDir dm = none) :
    ∃ e, copyWritableLayer root sm dm = .error e := by
  cases h1 : findWritableDir sm with
  | none =>
    refine ⟨.wrap "source" (.simple ("no writable directory found in mounts (types: " ++
      joinMountTypes sm ++ ")")), ?_⟩
    simp only [copyWritableLayer, getWritableDir, h1]
  | some srcDir =>
    rcases h with h | h
    · rw [h1] at h
      cases h
    · refine ⟨.wrap "destination" (.simple ("no writable directory found in mounts (types: " ++
        joinMountTypes dm ++ ")")), ?_⟩
      simp only [copyWritableLayer, getWritableDir, h1, h]

/-- C7 counterexample: a concrete clone request whose SOURCE mount list has
no identifiable writable directory nevertheless reaches the underlying
prepare (the destination snapshot is created) and then rolls it back with
remove — it does not fail before creation as the claim states. -/
theorem clone_source_shape_counterexample :
    findWritableDir [wTmpfsMount] = none ∧
    (CloneSnapshotter.Prepare wStoreBadSrc wRoot "dst" "p" wOpts).trace.map
        StoreOp.tag =
      [.stat "srckey", .mounts "srckey", .prepare "dst" "base", .remove "dst"] ∧
    ((CloneSnapshotter.Prepare wStoreBadSrc wRoot "dst" "p" wOpts).trace.map
        StoreOp.tag).any OpTag.isPrepareCall = true ∧
    (CloneSnapshotter.Prepare wStoreBadSrc wRoot "dst" "p" wOpts).res =
      .error (.wrap ("copy writable layer from " ++ quoteStr "srckey" ++
        " to " ++ quoteStr "dst")
        (.wrap "source"
          (.simple "no writable directory found in mounts (types: tmpfs)"))) :=
  ⟨rfl, rfl, rfl, rfl⟩

/-- C7 amended: whenever no writable directory is identifiable in the
source's or in the destination's mount list, the clone fails after the
destination snapshot has been created — the underlying prepare call is in
the trace — and triggers its rollback via remove; in both cases alike. -/
theorem clone_unsupported_shape_rolls_back
    (s : Store) (root : FNode) (key parent : String) (opts : List Opt)
    (info : Info) (sourceKey : String) (si : Info) (sm dm : List Mount)
    (hres : applyOpts opts Info.empty = .ok info)
    (hlab : getLabel info.labels LabelCloneSource = some sourceKey)
    (hstat : s.stat sourceKey = .ok si)
    (hmnts : s.mounts sourceKey = .ok sm)
    (hprep : s.prepare key si.parent (withoutLabel opts LabelCloneSource) = .ok dm)
    (hshape : findWritableDir sm = none ∨ findWritableDir dm = none) :
    (∃ e, (CloneSnapshotter.Prepare s root key parent opts).res = .error e) ∧
    StoreOp.prepare key si.parent (withoutLabel opts LabelCloneSource) ∈
      (CloneSnapshotter.Prepare s root key parent opts).trace ∧
    StoreOp.remove key ∈
      (CloneSnapshotter.Prepare s root key parent opts).trace := by
  have h1 := prepare_clone_eq s root key parent opts info sourceKey hres hlab
  obtain ⟨e, hcopy⟩ := copyWritableLayer_shape_error root sm dm hshape
  cases h5 : s.remove key with
  | ok u =>
    cases u
    have h2 := clonePrepare_copyFail_removeOk s root key sourceKey opts si sm dm
      e hstat hmnts hprep hcopy h5
    exact ⟨⟨_, by rw [h1, h2]⟩, by rw [h1, h2]; simp, by rw [h1, h2]; simp⟩
  | error re =>
    have h2 := clonePrepare_copyFail_removeFail s root key sourceKey opts si sm
      dm e re hstat hmnts hprep hcopy h5
    exact ⟨⟨_, by rw [h1, h2]⟩, by rw [h1, h2]; simp, by rw [h1, h2]; simp⟩

/-- Witness for the amended C7 on the concrete unsupported-source-shape
clone. -/
theorem clone_unsupported_shape_rolls_back_witness :
    (∃ e, (CloneSnapshotter.Prepare wStoreBadSrc wRoot "dst" "p" wOpts).res =
      .error e) ∧
    StoreOp.prepare "dst" "base" (withoutLabel wOpts LabelCloneSource) ∈
      (CloneSnapshotter.Prepare wStoreBadSrc wRoot "dst" "p" wOpts).trace ∧
    StoreOp.remove "dst" ∈
      (CloneSnapshotter.Prepare wStoreBadSrc wRoot "dst" "p" wOpts).trace :=
  clone_unsupported_shape_rolls_back wStoreBadSrc wRoot "dst" "p" wOpts
    { labels := [(LabelCloneSource, "srckey")] } "srckey"
    { name := "srckey", parent := "base" } [wTmpfsMount] [wDstBind]
    rfl rfl rfl rfl rfl (Or.inl rfl)

/-- Setting a child then looking it up finds the new node. -/
theorem lookup_setChild_self (cs : List (String × FNode)) (k : String)
    (n : FNode) : List.lookup k (setChild cs k n) = some n := by
  induction cs with
  | nil => simp [setChild, List.lookup]
  | cons p rest ih =>
    obtain ⟨k1, c1⟩ := p
    by_cases h : k1 = k
    · simp [setChild, h, List.lookup]
    · simp only [setChild, if_neg h]
      have hk : k ≠ k1 := fun hh => h hh.symm
      simpa [List.lookup, beq_false_of_ne hk] using ih

/-- Setting one child leaves every other key's lookup unchanged. -/
theorem lookup_setChild_other (cs : List (String × FNode)) (k k2 : String)
    (n : FNode) (hne : k2 ≠ k) :
    List.lookup k2 (setChild cs k n) = List.lookup k2 cs := by
  induction cs with
  | nil => simp [setChild, List.lookup, beq_false_of_ne hne]
  | cons p rest ih =>
    obtain ⟨k1, c1⟩ := p
    by_cases h : k1 = k
    · subst h
      simp [setChild, List.lookup, beq_false_of_ne hne]
    · simp only [setChild, if_neg h]
      by_cases h2 : k2 = k1
      · subst h2
        simp [List.lookup]
      · simpa [List.lookup, beq_false_of_ne h2] using ih

/-- A found path into a directory factors through one child. -/
theorem lookupR_dir_found (m : Nat) (cs : List (String × FNode)) (k2 : String)
    (p2 : List String) (x : FNode)
    (h : lookupR (.dir m cs) (k2 :: p2) = .found x) :
    ∃ c, List.lookup k2 cs = some c ∧ lookupR c p2 = .found x := by
  simp only [lookupR] at h
  cases hl : List.lookup k2 cs with
  | none => rw [hl] at h; cases h
  | some c => rw [hl] at h; exact ⟨c, rfl, h⟩

/-- Descending into a present child. -/
theorem lookupR_dir_step (m : Nat) (cs : List (String × FNode)) (k2 : String)
    (p2 : List String) (c : FNode) (hl : List.lookup k2 cs = some c) :
    lookupR (.dir m cs) (k2 :: p2) = lookupR c p2 := by
  simp [lookupR, hl]

/-- Replacing the node at a resolvable path makes it the one found there. -/
theorem lookupR_replaceAt (p : List String) :
    ∀ (root old new : FNode), lookupR root p = .found old →
      lookupR (replaceAt root p new) p = .found new := by
  induction p with
  | nil => intro root old new _; simp [replaceAt, lookupR]
  | cons k rest ih =>
    intro root old new h
    cases root with
    | file m c => simp [lookupR] at h
    | symlink tg => simp [lookupR] at h
    | dir m cs =>
      obtain ⟨c, hl, hc⟩ := lookupR_dir_found m cs k rest old h
      rw [replaceAt, hl]
      rw [lookupR_dir_step m (setChild cs k (replaceAt c rest new)) k rest
        (replaceAt c rest new) (lookup_setChild_self cs k (replaceAt c rest new))]
      exact ih c old new hc

/-- C8: clearing a destination directory that does not exist succeeds as a
no-op leaving the tree unchanged; clearing an existing directory removes
all of its children while the directory node itself stays in place with
its mode; and every successful replication factors as that clearing of the
destination directory followed by the copy — the children are gone before
any copying begins. -/
theorem clearDir_semantics :
    (∀ root p, lookupR root p = .noent → clearDir root p = .ok root) ∧
    (∀ root p m cs, lookupR root p = .found (.dir m cs) →
      clearDir root p = .ok (replaceAt root p (.dir m [])) ∧
      lookupR (replaceAt root p (.dir m [])) p = .found (.dir m [])) ∧
    (∀ root srcM dstM root2, copyWritableLayer root srcM dstM = .ok root2 →
      ∃ srcDir dstDir root1,
        getWritableDir srcM = .ok srcDir ∧
        getWritableDir dstM = .ok dstDir ∧
        clearDir root (splitPath dstDir) = .ok root1 ∧
        copyDir root1 (splitPath srcDir) (splitPath dstDir) = .ok root2) := by
  refine ⟨fun root p h => by simp [clearDir, h],
    fun root p m cs h => ⟨by simp [clearDir, h],
      lookupR_replaceAt p root (.dir m cs) (.dir m []) h⟩,
    fun root srcM dstM root2 h => ?_⟩
  cases h1 : getWritableDir srcM with
  | error e => simp only [copyWritableLayer, h1] at h; cases h
  | ok srcDir =>
    cases h2 : getWritableDir dstM with
    | error e => simp only [copyWritableLayer, h1, h2] at h; cases h
    | ok dstDir =>
      cases h3 : clearDir root (splitPath dstDir) with
      | error e => simp only [copyWritableLayer, h1, h2, h3] at h; cases h
      | ok root1 =>
        simp only [copyWritableLayer, h1, h2, h3] at h
        exact ⟨srcDir, dstDir, root1, rfl, rfl, by rw [h3], h⟩

/-- A successful file write preserves every symlink already in the tree. -/
theorem writeFile_frame (q : List String) :
    ∀ (root root2 : FNode) (mode : Nat) (content : String),
      writeFile root q mode content = .ok root2 →
      preservesSymlinks root root2 := by
  induction q with
  | nil =>
    intro root root2 mode content h
    simp [writeFile] at h
  | cons k rest ih =>
    intro root root2 mode content h p t hp
    cases root with
    | file m c => simp [writeFile] at h
    | symlink tg => simp [writeFile] at h
    | dir m cs =>
      cases rest with
      | nil =>
        cases hl : List.lookup k cs with
        | none =>
          simp only [writeFile, hl] at h
          cases h
          cases p with
          | nil => simp [lookupR] at hp
          | cons k2 p2 =>
            obtain ⟨c, hl2, hc⟩ := lookupR_dir_found m cs k2 p2 _ hp
            by_cases hk : k2 = k
            · subst hk
              rw [hl] at hl2
              cases hl2
            · rw [lookupR_dir_step m _ k2 p2 c
                (by rw [lookup_setChild_other cs k k2 _ hk]; exact hl2)]
              exact hc
        | some c0 =>
          cases c0 with
          | file m0 c0c =>
            simp only [writeFile, hl] at h
            cases h
            cases p with
            | nil => simp [lookupR] at hp
            | cons k2 p2 =>
              obtain ⟨c, hl2, hc⟩ := lookupR_dir_found m cs k2 p2 _ hp
              by_cases hk : k2 = k
              · subst hk
                rw [hl] at hl2
                cases hl2
                cases p2 with
                | nil => simp [lookupR] at hc
                | cons a b => simp [lookupR] at hc
              · rw [lookupR_dir_step m _ k2 p2 c
                  (by rw [lookup_setChild_other cs k k2 _ hk]; exact hl2)]
                exact hc
          | dir m0 cs0 => simp [writeFile, hl] at h
          | symlink t0 => simp [writeFile, hl] at h
      | cons r1 rs =>
        cases hl : List.lookup k cs with
        | none => simp [writeFile, hl] at h
        | some c0 =>
          cases hw : writeFile c0 (r1 :: rs) mode content with
          | error e => simp only [writeFile, hl, hw] at h; cases h
          | ok c2 =>
            simp only [writeFile, hl, hw] at h
            cases h
            cases p with
            | nil => simp [lookupR] at hp
            | cons k2 p2 =>
              obtain ⟨c, hl2, hc⟩ := lookupR_dir_found m cs k2 p2 _ hp
              by_cases hk : k2 = k
              · subst hk
                rw [hl] at hl2
                cases hl2
                rw [lookupR_dir_step m _ k2 p2 c2 (lookup_setChild_self cs k2 c2)]
                exact ih c0 c2 mode content hw p2 t hc
              · rw [lookupR_dir_step m _ k2 p2 c
                  (by rw [lookup_setChild_other cs k k2 _ hk]; exact hl2)]
                exact hc

/-- A successful mkdirAll preserves every symlink already in the tree. -/
theorem mkdirAll_frame (q : List String) :
    ∀ (root root2 : FNode) (mode : Nat),
      mkdirAll root q mode = .ok root2 → preservesSymlinks root root2 := by
  induction q with
  | nil =>
    intro root root2 mode h p t hp
    cases root with
    | dir m cs =>
      simp only [mkdirAll] at h
      cases h
      exact hp
    | file m c => simp [mkdirAll] at h
    | symlink tg => simp [mkdirAll] at h
  | cons k rest ih =>
    intro root root2 mode h p t hp
    cases root with
    | file m c => simp [mkdirAll] at h
    | symlink tg => simp [mkdirAll] at h
    | dir m cs =>
      cases hl : List.lookup k cs with
      | some c0 =>
        cases hm : mkdirAll c0 rest mode with
        | error e => simp only [mkdirAll, hl, hm] at h; cases h
        | ok c2 =>
          simp only [mkdirAll, hl, hm] at h
          cases h
          cases p with
          | nil => simp [lookupR] at hp
          | cons k2 p2 =>
            obtain ⟨c, hl2, hc⟩ := lookupR_dir_found m cs k2 p2 _ hp
            by_cases hk : k2 = k
            · subst hk
              rw [hl] at hl2
              cases hl2
              rw [lookupR_dir_step m _ k2 p2 c2 (lookup_setChild_self cs k2 c2)]
              exact ih c0 c2 mode hm p2 t hc
            · rw [lookupR_dir_step m _ k2 p2 c
                (by rw [lookup_setChild_other cs k k2 _ hk]; exact hl2)]
              exact hc
      | none =>
        cases hm : mkdirAll (.dir mode []) rest mode with
        | error e => simp only [mkdirAll, hl, hm] at h; cases h
        | ok c2 =>
          simp only [mkdirAll, hl, hm] at h
          cases h
          cases p with
          | nil => simp [lookupR] at hp
          | cons k2 p2 =>
            obtain ⟨c, hl2, hc⟩ := lookupR_dir_found m cs k2 p2 _ hp
            by_cases hk : k2 = k
            · subst hk
              rw [hl] at hl2
              cases hl2
            · rw [lookupR_dir_step m _ k2 p2 c
                (by rw [lookup_setChild_other cs k k2 _ hk]; exact hl2)]
              exact hc

/-- A successful symlink creation preserves every symlink already in the
tree. -/
theorem symlinkAt_frame (q : List String) :
    ∀ (root root2 : FNode) (target : String),
      symlinkAt root q target = .ok root2 → preservesSymlinks root root2 := by
  induction q with
  | nil =>
    intro root root2 target h
    simp [symlinkAt] at h
  | cons k rest ih =>
    intro root root2 target h p t hp
    cases root with
    | file m c => simp [symlinkAt] at h
    | symlink tg => simp [symlinkAt] at h
    | dir m cs =>
      cases rest with
      | nil =>
        cases hl : List.lookup k cs with
        | none =>
          simp only [symlinkAt, hl] at h
          cases h
          cases p with
          | nil => simp [lookupR] at hp
          | cons k2 p2 =>
            obtain ⟨c, hl2, hc⟩ := lookupR_dir_found m cs k2 p2 _ hp
            by_cases hk : k2 = k
            · subst hk
              rw [hl] at hl2
              cases hl2
            · rw [lookupR_dir_step m _ k2 p2 c
                (by rw [lookup_setChild_other cs k k2 _ hk]; exact hl2)]
              exact hc
        | some c0 => simp [symlinkAt, hl] at h
      | cons r1 rs =>
        cases hl : List.lookup k cs with
        | none => simp [symlinkAt, hl] at h
        | some c0 =>
          cases hs : symlinkAt c0 (r1 :: rs) target with
          | error e => simp only [symlinkAt, hl, hs] at h; cases h
          | ok c2 =>
            simp only [symlinkAt, hl, hs] at h
            cases h
            cases p with
            | nil => simp [lookupR] at hp
            | cons k2 p2 =>
              obtain ⟨c, hl2, hc⟩ := lookupR_dir_found m cs k2 p2 _ hp
              by_cases hk : k2 = k
              · subst hk
                rw [hl] at hl2
                cases hl2
                rw [lookupR_dir_step m _ k2 p2 c2 (lookup_setChild_self cs k2 c2)]
                exact ih c0 c2 target hs p2 t hc
              · rw [lookupR_dir_step m _ k2 p2 c
                  (by rw [lookup_setChild_other cs k k2 _ hk]; exact hl2)]
                exact hc

/-- A successful symlink creation puts a symlink with exactly the given
target string at the given path. -/
theorem symlinkAt_creates (q : List String) :
    ∀ (root root2 : FNode) (target : String),
      symlinkAt root q target = .ok root2 →
      lookupR root2 q = .found (.symlink target) := by
  induction q with
  | nil =>
    intro root root2 target h
    simp [symlinkAt] at h
  | cons k rest ih =>
    intro root root2 target h
    cases root with
    | file m c => simp [symlinkAt] at h
    | symlink tg => simp [symlinkAt] at h
    | dir m cs =>
      cases rest with
      | nil =>
        cases hl : List.lookup k cs with
        | none =>
          simp only [symlinkAt, hl] at h
          cases h
          rw [lookupR_dir_step m _ k []
            (.symlink target) (lookup_setChild_self cs k (.symlink target))]
          rfl
        | some c0 => simp [symlinkAt, hl] at h
      | cons r1 rs =>
        cases hl : List.lookup k cs with
        | none => simp [symlinkAt, hl] at h
        | some c0 =>
          cases hs : symlinkAt c0 (r1 :: rs) target with
          | error e => simp only [symlinkAt, hl, hs] at h; cases h
          | ok c2 =>
            simp only [symlinkAt, hl, hs] at h
            cases h
            rw [lookupR_dir_step m _ k (r1 :: rs) c2 (lookup_setChild_self cs k c2)]
            exact ih c0 c2 target hs

mutual
/-- A successful copy of one source entry preserves every symlink already
in the destination tree. -/
theorem copyNode_frame (root : FNode) (dst : List String) (src : FNode)
    (root2 : FNode) (h : copyNode root dst src = .ok root2) :
    preservesSymlinks root root2 := by
  cases src with
  | symlink t0 =>
    simp only [copyNode] at h
    exact symlinkAt_frame dst root root2 t0 h
  | file m0 c0 =>
    simp only [copyNode] at h
    exact writeFile_frame dst root root2 m0 c0 h
  | dir m0 cs0 =>
    cases hm : mkdirAll root dst m0 with
    | error e => simp only [copyNode, hm] at h; cases h
    | ok root1 =>
      simp only [copyNode, hm] at h
      intro p t hp
      exact copyChildren_frame root1 dst cs0 root2 h p t
        (mkdirAll_frame dst root root1 m0 hm p t hp)

/-- A successful copy of a list of source entries preserves every symlink
already in the destination tree. -/
theorem copyChildren_frame (root : FNode) (dst : List String)
    (cs : List (String × FNode)) (root2 : FNode)
    (h : copyChildren root dst cs = .ok root2) :
    preservesSymlinks root root2 := by
  cases cs with
  | nil =>
    simp only [copyChildren] at h
    cases h
    exact fun p t hp => hp
  | cons entry rest =>
    obtain ⟨k, c⟩ := entry
    cases hcn : copyNode root (dst ++ [k]) c with
    | error e => simp only [copyChildren, hcn] at h; cases h
    | ok root1 =>
      simp only [copyChildren, hcn] at h
      intro p t hp
      exact copyChildren_frame root1 dst rest root2 h p t
        (copyNode_frame root (dst ++ [k]) c root1 hcn p t hp)
end

/-- Scanning a copied entry list: if the source entries resolve a path
k :: p2 to a symlink, a successful copy of those entries places a symlink
with the identical target at the destination path followed by k :: p2. -/
theorem copyChildren_places (p2 : List String) :
    ∀ (k : String) (c : FNode) (t : String) (dst : List String)
      (cs : List (String × FNode)) (root root2 : FNode),
      copyChildren root dst cs = .ok root2 →
      List.lookup k cs = some c →
      lookupR c p2 = .found (.symlink t) →
      lookupR root2 (dst ++ k :: p2) = .found (.symlink t) := by
  induction p2 with
  | nil =>
    intro k c t dst cs root root2 h hl hp
    have hc : c = .symlink t := by simpa [lookupR] using hp
    subst hc
    induction cs generalizing root with
    | nil => cases hl
    | cons entry rest ihcs =>
      obtain ⟨k1, c1⟩ := entry
      cases hcn : copyNode root (dst ++ [k1]) c1 with
      | error e => simp only [copyChildren, hcn] at h; cases h
      | ok root1 =>
        simp only [copyChildren, hcn] at h
        by_cases hk : k = k1
        · subst hk
          have hc1 : c1 = .symlink t := by simpa [List.lookup] using hl
          subst hc1
          simp only [copyNode] at hcn
          exact copyChildren_frame root1 dst rest root2 h (dst ++ [k]) t
            (symlinkAt_creates (dst ++ [k]) root root1 t hcn)
        · have hl2 : List.lookup k rest = some (.symlink t) := by
            simpa [List.lookup, beq_false_of_ne hk] using hl
          exact ihcs root1 h hl2
  | cons k2 p3 ihp =>
    intro k c t dst cs root root2 h hl hp
    cases c with
    | file m0 c0 => simp [lookupR] at hp
    | symlink t0 => simp [lookupR] at hp
    | dir m0 cs0 =>
      obtain ⟨c2, hl2, hc2⟩ := lookupR_dir_found m0 cs0 k2 p3 _ hp
      induction cs generalizing root with
      | nil => cases hl
      | cons entry rest ihcs =>
        obtain ⟨k1, c1⟩ := entry
        cases hcn : copyNode root (dst ++ [k1]) c1 with
        | error e => simp only [copyChildren, hcn] at h; cases h
        | ok root1 =>
          simp only [copyChildren, hcn] at h
          by_cases hk : k = k1
          · subst hk
            have hc1 : c1 = .dir m0 cs0 := by simpa [List.lookup] using hl
            subst hc1
            cases hm : mkdirAll root (dst ++ [k]) m0 with
            | error e => simp only [copyNode, hm] at hcn; cases hcn
            | ok rootm =>
              simp only [copyNode, hm] at hcn
              have h1 := ihp k2 c2 t (dst ++ [k]) cs0 rootm root1 hcn hl2 hc2
              rw [List.append_assoc] at h1
              exact copyChildren_frame root1 dst rest root2 h
                (dst ++ k :: k2 :: p3) t h1
          · have hl3 : List.lookup k rest = some (.dir m0 cs0) := by
              simpa [List.lookup, beq_false_of_ne hk] using hl
            exact ihcs root1 h hl3

/-- C9: for every symbolic link in the source tree reached by the copy
walk, a successful copyDir creates at the corresponding destination path a
symbolic link whose target is the identical target string read from the
source link — for any target string whatsoever, resolved and validated
nowhere (the copy succeeds even when the target does not exist in the
tree), and with no content copied in its place. -/
theorem copyDir_symlink_fidelity (root : FNode) (srcDir dstDir : List String)
    (root2 : FNode) (m : Nat) (cs : List (String × FNode)) (p : List String)
    (t : String)
    (h : copyDir root srcDir dstDir = .ok root2)
    (hsrc : lookupR root srcDir = .found (.dir m cs))
    (hp : lookupR (.dir m cs) p = .found (.symlink t)) :
    lookupR root2 (dstDir ++ p) = .found (.symlink t) := by
  simp only [copyDir, hsrc] at h
  cases p with
  | nil => simp [lookupR] at hp
  | cons k p2 =>
    obtain ⟨c, hl, hc⟩ := lookupR_dir_found m cs k p2 _ hp
    exact copyChildren_places p2 k c t dstDir cs root root2 h hl hc

/-- Witness for C9: the fixture's dangling symlink is recreated verbatim
in the cloned writable directory. -/
theorem copyDir_symlink_fidelity_witness :
    lookupR wRootCloned ["dst", "link"] = .found (.symlink "dangling-target") :=
  copyDir_symlink_fidelity
    (.dir 755
      [("src", .dir 700
        [("a.txt", .file 644 "hello"),
         ("link", .symlink "dangling-target"),
         ("sub", .dir 755 [("b", .file 600 "bb")])]),
       ("dst", .dir 700 [])])
    ["src"] ["dst"] wRootCloned 700
    [("a.txt", .file 644 "hello"),
     ("link", .symlink "dangling-target"),
     ("sub", .dir 755 [("b", .file 600 "bb")])]
    ["link"] "dangling-target" rfl rfl rfl

/-- Witness for C8: clearing a missing directory is a no-op, clearing the
fixture destination leaves the directory node with no children, and the
fixture replication factors through that clearing. -/
theorem clearDir_semantics_witness :
    clearDir wRoot ["nothere"] = .ok wRoot ∧
    clearDir wRoot ["dst"] = .ok (replaceAt wRoot ["dst"] (.dir 700 [])) ∧
    lookupR (replaceAt wRoot ["dst"] (.dir 700 [])) ["dst"] =
      .found (.dir 700 []) :=
  ⟨clearDir_semantics.1 wRoot ["nothere"] rfl,
    (clearDir_semantics.2.1 wRoot ["dst"] 700
      [("stale", FNode.file 644 "old")] rfl).1,
    (clearDir_semantics.2.1 wRoot ["dst"] 700
      [("stale", FNode.file 644 "old")] rfl).2⟩
